import Mathlib

/-!
Verification of the element-description extraction engine of a DevTools
extension.  The development shallowly embeds the TypeScript source:

* the DOM-side extraction (content script, `src/unnamed/part_000`):
  `getFullDomPath`, `getUniqueSelector`, `getParentChain`,
  `getAllAttributes`, `getRelevantStyles`, `getElementInfo`,
  `getReactInfoFromBackground`;
* the component-runtime reflection (`src/background/background.ts`,
  the `GET_REACT_INFO` executeScript function): `getReactFiber` retry,
  `getComponentDisplayName`, `getDebugSource`, `getSafeProps`, the
  30-hop fiber walk and the result assembly;
* the duplicated attribute sampler of the panel capture script
  (`src/panel/panel.tsx`).

JavaScript truthiness of the relevant values is made explicit through the
`jsTruthy*` helpers; `slice(0, n)` on strings is `jsTake`; machine
integers do not overflow in any modelled computation, so `Nat` is used
directly.  The DOM is modelled as a finite tree rooted at the document
body; a node is addressed by its child-index path from the body, which
matches the source walks because every walk stops at the body
(exclusive).  The model roots at the body, so the body itself has no
parent; no claim inspects fields of the body node.
-/

/-- Model of JS truthiness on a nullable string: `null`/`undefined` and
the empty string are falsy. -/
def jsTruthyO : Option String → Option String
  | some s => if s = "" then none else some s
  | none => none

/-- Model of JS truthiness on a string value itself. -/
def truthyStr (s : String) : Option String :=
  if s = "" then none else some s

/-- Model of JS truthiness on a nullable number: `null`/`undefined` and
`0` are falsy. -/
def jsTruthyN : Option Nat → Option Nat
  | some 0 => none
  | some n => some n
  | none => none

/-- Model of the JS `String.prototype.slice(0, n)`. -/
def jsTake (s : String) (n : Nat) : String :=
  ⟨s.data.take n⟩

/-- Model of the JS `String.prototype.startsWith`. -/
def jsStartsWith (s pre : String) : Bool :=
  pre.data.isPrefixOf s.data

/-- ASCII lower-casing of one character (sufficient for the tag names
the source lower-cases). -/
def lowerChar (c : Char) : Char :=
  if 'A' ≤ c ∧ c ≤ 'Z' then Char.ofNat (c.toNat + 32) else c

/-- Model of the JS `String.prototype.toLowerCase` on ASCII data. -/
def jsToLower (s : String) : String :=
  ⟨s.data.map lowerChar⟩

/-- Model of the JS `String.prototype.trim`. -/
def jsTrim (s : String) : String :=
  ⟨(((s.data.dropWhile Char.isWhitespace).reverse).dropWhile Char.isWhitespace).reverse⟩

/-- Does `pat` occur as a contiguous sublist? -/
def hasSubList (pat : List Char) : List Char → Bool
  | [] => pat.isPrefixOf []
  | c :: rest => pat.isPrefixOf (c :: rest) || hasSubList pat rest

/-- Model of the JS `String.prototype.includes`. -/
def strContains (s pat : String) : Bool :=
  hasSubList pat.data s.data

/-- One pass of splitting a character list at every whitespace
character (empty pieces kept, as JS `split` keeps them for runs). -/
def splitWsAux : List Char → List Char → List String
  | [], acc => [⟨acc.reverse⟩]
  | c :: rest, acc =>
    if c.isWhitespace then (⟨acc.reverse⟩ : String) :: splitWsAux rest []
    else splitWsAux rest (c :: acc)

/-- Model of the JS `name.split(/\s+/).filter(Boolean)` idiom. -/
def splitClasses (s : String) : List String :=
  (splitWsAux s.data []).filter (fun c => c ≠ "")

/-! ## The DOM model -/

/-- Static data of one DOM element, as read by the extraction code:
`nodeName` (upper-case for HTML elements), the attribute list (backing
`getAttribute`), `className` (`none` models a non-string `className`,
e.g. on SVG elements), `innerText` (`none` models `undefined`),
`innerHTML`, the computed-style mapping returned by
`window.getComputedStyle`, and the optional internal fiber chain
attached by the rendering library (`none` when the node carries no
`__reactFiber$`-style key).  The fiber chain is typed later; here it is
a parameter. -/
structure ElemDataG (φ : Type) where
  nodeName : String
  attrs : List (String × String)
  className : Option String
  innerText : Option String
  innerHTML : String
  computedStyle : List (String × String)
  fiberChain : Option φ

/-- A DOM element: its data and its child list. -/
inductive ElemG (φ : Type) where
  | mk (data : ElemDataG φ) (children : List (ElemG φ))

def ElemG.data : ElemG φ → ElemDataG φ
  | .mk d _ => d

def ElemG.children : ElemG φ → List (ElemG φ)
  | .mk _ c => c

def ElemG.nodeName (e : ElemG φ) : String := e.data.nodeName

/-- Model of `element.getAttribute(name)`. -/
def getAttr (e : ElemG φ) (name : String) : Option String :=
  (e.data.attrs.find? (fun kv => kv.1 = name)).map (fun kv => kv.2)

/-- Model of the class-list computation
`className && typeof className === "string" ? className.split(/\s+/).filter(Boolean) : []`. -/
def classList (e : ElemG φ) : List String :=
  match e.data.className with
  | some s => if s = "" then [] else splitClasses s
  | none => []

/-- Model of `getAttribute("data-testid") || getAttribute("data-test-id")`. -/
def testIdOf (e : ElemG φ) : Option String :=
  (jsTruthyO (getAttr e "data-testid")).orElse (fun _ => jsTruthyO (getAttr e "data-test-id"))

/-- Number of children of `children` whose `nodeName` equals `nm`
(the `siblings` filter of the source walks). -/
def countTag (children : List (ElemG φ)) (nm : String) : Nat :=
  (children.filter (fun c => c.nodeName = nm)).length

/-- Number of same-`nodeName` siblings strictly before index `i`; the JS
`siblings.indexOf(current)` under reference equality equals exactly this
count when `current` is the child at index `i`. -/
def countTagBefore (children : List (ElemG φ)) (i : Nat) (nm : String) : Nat :=
  ((children.take i).filter (fun c => c.nodeName = nm)).length

/-- The `:nth-of-type(k)` suffix appended by both `getFullDomPath` and
`getUniqueSelector`: present iff the parent has more than one child of
the same tag, with `k` the 1-based position among them. -/
def nthSuffix (children : List (ElemG φ)) (i : Nat) (nm : String) : String :=
  if countTag children nm > 1 then
    ":nth-of-type(" ++ toString (countTagBefore children i nm + 1) ++ ")"
  else ""

/-- The identifier/test-id/class part of one `getFullDomPath` token
(everything before the positional suffix). -/
def domPathBase (c : ElemG φ) : String :=
  let tagStr := jsToLower c.nodeName
  match jsTruthyO (getAttr c "id") with
  | some idv => tagStr ++ "#" ++ idv
  | none =>
    match testIdOf c with
    | some t => tagStr ++ "[data-testid=\x27" ++ t ++ "\x27]"
    | none =>
      let cls := classList c
      if cls = [] then tagStr
      else tagStr ++ "." ++ String.intercalate "." (cls.take 2)

/-- One token of `getFullDomPath` for the element `c` sitting at child
index `i` under parent `p`. -/
def domPathToken (c p : ElemG φ) (i : Nat) : String :=
  domPathBase c ++ nthSuffix p.children i c.nodeName

/-- The ancestor chain of a node below the body, nearest-first: each
entry is the element, its parent, and its child index in the parent.
The body itself never appears as the element of an entry. -/
abbrev Chain (φ : Type) := List (ElemG φ × ElemG φ × Nat)

/-- Resolve a child-index path from the body to a node, returning the
node and its ancestor chain (nearest-first, body excluded). -/
def locate : ElemG φ → List Nat → Option (ElemG φ × Chain φ)
  | e, [] => some (e, [])
  | e, i :: rest =>
    match e.children.get? i with
    | none => none
    | some c => (locate c rest).map (fun p => (p.1, p.2 ++ [(c, e, i)]))

/-- The token list collected by the `getFullDomPath` loop, in collection
order (node first), bounded by the `parts.length < 15` condition. -/
def domPathParts (chain : Chain φ) : List String :=
  (chain.take 15).map (fun t => domPathToken t.1 t.2.1 t.2.2)

/-- Model of `getFullDomPath`: the loop unshifts each token, so the
joined string is in root-to-node order. -/
def getFullDomPath (chain : Chain φ) : String :=
  String.intercalate " > " (domPathParts chain).reverse

/-! ## Selector synthesizer (`getUniqueSelector`) -/

/-- The tag-plus-position token used by the `getUniqueSelector` loop when
the current element has no truthy `id`. -/
def uniqueSelToken (c p : ElemG φ) (i : Nat) : String :=
  jsToLower c.nodeName ++ nthSuffix p.children i c.nodeName

/-- The token list collected by the `getUniqueSelector` while loop, in
collection order (node first); an ancestor with a truthy `id` emits
`#id` and stops the walk (`break`). -/
def uniqueSelParts : Chain φ → List String
  | [] => []
  | (c, p, i) :: rest =>
    match jsTruthyO (getAttr c "id") with
    | some idv => ["#" ++ idv]
    | none => uniqueSelToken c p i :: uniqueSelParts rest

/-- Model of `getUniqueSelector`: `#id` for a truthy `id`, else a
`[data-testid="…"]` selector for a truthy test id, else the joined
tag/position walk stopping at the body or at an ancestor with an id. -/
def getUniqueSelector (el : ElemG φ) (chain : Chain φ) : String :=
  match jsTruthyO (getAttr el "id") with
  | some idv => "#" ++ idv
  | none =>
    match testIdOf el with
    | some t => "[data-testid=\"" ++ t ++ "\"]"
    | none => String.intercalate " > " (uniqueSelParts chain).reverse

/-! ## Ancestor walker (`getParentChain`) -/

/-- One structured record of `getParentChain`. -/
structure ParentEntry where
  tag : String
  id : Option String
  classes : Option (List String)
  testId : Option String
deriving DecidableEq

/-- The record built for one ancestor by `getParentChain`. -/
def parentEntryOf (e : ElemG φ) : ParentEntry :=
  { tag := jsToLower e.nodeName
    id := jsTruthyO (getAttr e "id")
    classes := (let cls := classList e; if cls = [] then none else some cls)
    testId := testIdOf e }

/-- Model of `getParentChain` (default `maxDepth = 8`): the walk starts
at `node.parentElement`, stops before the body, and visits at most 8
ancestors.  In the chain representation the strict ancestors of the
node below the body are the elements of `chain.drop 1`. -/
def getParentChain (chain : Chain φ) : List ParentEntry :=
  ((chain.drop 1).take 8).map (fun t => parentEntryOf t.1)

/-! ## Attribute and style samplers -/

/-- Model of the content-script `getAllAttributes`
(`src/unnamed/part_000`): every attribute is copied except those whose
name starts with `__react` or `data-element-agent`; values are
truncated by `slice(0, 200)`. -/
def getAllAttributes (attrs : List (String × String)) : List (String × String) :=
  attrs.filterMap (fun kv =>
    if jsStartsWith kv.1 "__react" ∨ jsStartsWith kv.1 "data-element-agent" then none
    else some (kv.1, jsTake kv.2 200))

/-- Model of the panel capture-script `getAllAttributes`
(`src/panel/panel.tsx`, `ELEMENT_CAPTURE_SCRIPT`): this duplicate only
excludes names starting with `__react`. -/
def panelGetAllAttributes (attrs : List (String × String)) : List (String × String) :=
  attrs.filterMap (fun kv =>
    if jsStartsWith kv.1 "__react" then none
    else some (kv.1, jsTake kv.2 200))

/-- The fixed allow-list of `getRelevantStyles`. -/
def relevantStyleProps : List String :=
  ["display", "position", "flex-direction", "justify-content", "align-items",
   "width", "height", "padding", "margin", "background-color", "color",
   "font-size", "font-weight", "border", "border-radius", "opacity", "visibility"]

/-- Model of `getRelevantStyles`: read each allow-listed property from
the computed-style mapping (a missing property reads as the falsy empty
string) and keep it unless the value is falsy or an uninformative
default. -/
def getRelevantStyles (computed : List (String × String)) : List (String × String) :=
  relevantStyleProps.filterMap (fun p =>
    match (computed.find? (fun kv => kv.1 = p)).map (fun kv => kv.2) with
    | some v =>
      if v = "" ∨ v = "none" ∨ v = "normal" ∨ v = "auto" ∨ v = "0px" then none
      else some (p, v)
    | none => none)

/-! ## Value sanitizer (`getSafeProps` of the `GET_REACT_INFO`
executeScript function in `src/background/background.ts`) -/

/-- A raw JS prop value, classified exactly as the `typeof` dispatch of
`getSafeProps` distinguishes values: a function, an array (with its
length), any other non-null object, a string, a number, a boolean,
`null`, and `undefined`. -/
inductive PropVal where
  | func
  | arr (n : Nat)
  | obj
  | str (s : String)
  | num (n : Int)
  | boolv (b : Bool)
  | nullv
  | undef
deriving DecidableEq

/-- A sanitized prop value: always a JSON-safe primitive. -/
inductive SafeVal where
  | str (s : String)
  | num (n : Int)
  | boolv (b : Bool)
  | nullv
deriving DecidableEq

/-- The reserved prop names skipped by the sanitizer. -/
def skipPropKeys : List String := ["children", "ref", "key", "__self", "__source"]

/-- The per-value dispatch of `getSafeProps`: a function becomes the
literal `[Function]`; an array becomes `[Array(n)]`; any other non-null
object becomes `[Object]`; a string longer than 100 characters is cut
to 100 plus `...`; `undefined` makes the key absent; anything else is
passed through unchanged. -/
def sanitizePropVal : PropVal → Option SafeVal
  | .func => some (.str "[Function]")
  | .arr n => some (.str ("[Array(" ++ toString n ++ ")]"))
  | .obj => some (.str "[Object]")
  | .str s => if s.length > 100 then some (.str (jsTake s 100 ++ "...")) else some (.str s)
  | .num n => some (.num n)
  | .boolv b => some (.boolv b)
  | .nullv => some SafeVal.nullv
  | .undef => none

/-- The key/value pairs surviving the `getSafeProps` loop, in order. -/
def sanitizeEntries (ps : List (String × PropVal)) : List (String × SafeVal) :=
  ps.filterMap (fun kv =>
    if kv.1 ∈ skipPropKeys then none
    else (sanitizePropVal kv.2).map (fun w => (kv.1, w)))

/-- Model of `getSafeProps`: `undefined` when the fiber has no
`memoizedProps`, otherwise the sanitized record, or `undefined` when no
entry survives. -/
def getSafeProps (props : Option (List (String × PropVal))) : Option (List (String × SafeVal)) :=
  match props with
  | none => none
  | some ps =>
    let safe := sanitizeEntries ps
    if safe = [] then none else some safe

/-! ## Component-tree walker (the `GET_REACT_INFO` executeScript
function in `src/background/background.ts`) -/

/-- Debug source as attached by the rendering runtime before the
`getDebugSource` normalisation: `lineNumber` and `columnNumber` may be
absent. -/
structure RawSource where
  fileName : String
  lineNumber : Option Nat
  columnNumber : Option Nat
deriving DecidableEq

/-- Debug source as returned by `getDebugSource`. -/
structure DebugSource where
  fileName : String
  lineNumber : Nat
  columnNumber : Option Nat
deriving DecidableEq

/-- The `displayName`/`name` pair of a function stored in a wrapper
object (`type.render` or the inner `type.type` of a memo wrapper). -/
structure NamedFn where
  displayName : Option String
  fnName : String
deriving DecidableEq

/-- The `fiber.type` descriptor, classified exactly as
`getComponentDisplayName` dispatches on it: a plain function, a string
(host tag), an object wrapper (with optional `displayName`, `render`,
`$$typeof` symbol string and inner `type`), or a falsy `type`. -/
inductive FiberType where
  | fnType (displayName : Option String) (fnName : String)
  | strType (tag : String)
  | objType (displayName : Option String) (render : Option NamedFn)
      (symStr : Option String) (inner : Option NamedFn)
  | nullType
deriving DecidableEq

/-- One node of the internal instance tree. -/
structure Fiber where
  ftype : FiberType
  debugSource : Option RawSource
  memoizedProps : Option (List (String × PropVal))
deriving DecidableEq

/-- Model of `getComponentDisplayName` (the typed executeScript copy in
`src/background/background.ts`). -/
def getComponentDisplayName : FiberType → Option String
  | .nullType => none
  | .fnType dn nm => (jsTruthyO dn).orElse (fun _ => truthyStr nm)
  | .strType tg => some tg
  | .objType dn rnd sym inner =>
    match jsTruthyO dn with
    | some d => some d
    | none =>
      match rnd with
      | some r => (jsTruthyO r.displayName).orElse (fun _ => truthyStr r.fnName)
      | none =>
        match sym with
        | some s =>
          if strContains s "forward_ref" then some "ForwardRef"
          else if strContains s "memo" then
            match inner with
            | some it =>
              some (((jsTruthyO it.displayName).orElse
                (fun _ => truthyStr it.fnName)).getD "Memo")
            | none => some "Memo"
          else none
        | none => none

/-- Model of `getDebugSource`: defined only when `_debugSource` exists
and carries a truthy `fileName`; a missing `lineNumber` becomes 0. -/
def getDebugSource (f : Fiber) : Option DebugSource :=
  match f.debugSource with
  | some r =>
    if r.fileName = "" then none
    else some { fileName := r.fileName, lineNumber := r.lineNumber.getD 0,
                columnNumber := r.columnNumber }
  | none => none

/-- Does a name begin with an upper-case ASCII letter
(the `/^[A-Z]/` test)? -/
def isUpperStart (s : String) : Bool :=
  match s.data with
  | [] => false
  | c :: _ => decide ('A' ≤ c) && decide (c ≤ 'Z')

/-- One retained hop of the component-tree walk. -/
structure TreeEntry where
  name : String
  source : Option DebugSource
  props : Option (List (String × SafeVal))
  isUserComponent : Bool
deriving DecidableEq

/-- One iteration of the fiber walk at depth `d`: the hop is retained
iff its derived name is truthy, does not start with an underscore, and
is not `Fragment`; props are only captured for the first 5 hops. -/
def mkEntry (d : Nat) (f : Fiber) : Option TreeEntry :=
  match getComponentDisplayName f.ftype with
  | some nm =>
    if nm ≠ "" ∧ ¬ jsStartsWith nm "_" ∧ nm ≠ "Fragment" then
      some { name := nm, source := getDebugSource f,
             props := if d < 5 then getSafeProps f.memoizedProps else none,
             isUserComponent := isUpperStart nm }
    else none
  | none => none

/-- The fiber walk: follow the `return` chain (given as a list) for at
most 30 hops, collecting the retained entries in order. -/
def walkFibers (fs : List Fiber) : List TreeEntry :=
  ((fs.take 30).enum).filterMap (fun p => mkEntry p.1 p.2)

/-- The user components of the walk, nearest first. -/
def userComponentsOf (fs : List Fiber) : List TreeEntry :=
  (walkFibers fs).filter (fun e => e.isUserComponent)

/-- The `hasReact: true` result record of the executeScript function. -/
structure ReactFound where
  componentName : Option String
  sourceFile : Option String
  sourceLine : Option Nat
  sourceColumn : Option Nat
  props : Option (List (String × SafeVal))
  componentHierarchy : List String
  fullReactTree : List String
  componentStack : List (String × Option DebugSource)
deriving DecidableEq

/-- Assembly of the `hasReact: true` result from a located fiber chain
(`src/background/background.ts`, end of the executeScript function).
The JS `||`-coercions to `null` are kept explicit. -/
def reactFoundOf (fs : List Fiber) : ReactFound :=
  let tree := walkFibers fs
  let ucs := userComponentsOf fs
  let fc := ucs.head?
  { componentName := jsTruthyO (fc.map (fun c => c.name))
    sourceFile := jsTruthyO ((fc.bind (fun c => c.source)).map (fun s => s.fileName))
    sourceLine := jsTruthyN ((fc.bind (fun c => c.source)).map (fun s => s.lineNumber))
    sourceColumn := jsTruthyN ((fc.bind (fun c => c.source)).bind (fun s => s.columnNumber))
    props := fc.bind (fun c => c.props)
    componentHierarchy := ucs.map (fun c => c.name)
    fullReactTree := tree.map (fun c => c.name)
    componentStack := (ucs.take 10).map (fun c => (c.name, c.source)) }

/-- From here on the DOM type is instantiated with the element-attached
fiber chain. -/
abbrev Elem := ElemG (List Fiber)

abbrev ElemData := ElemDataG (List Fiber)

/-- The three possible returns of the executeScript function: the
selector matched no element, no fiber link was found on the element or
its first 10 ancestors, or a located chain was walked. -/
inductive ReactOutcome where
  | noElement (error : String)
  | noReact
  | found (r : ReactFound)
deriving DecidableEq

/-- The fiber-location retry: take the fiber link of the element itself
when present, else the first link found on up to 10 ancestors. -/
def locateFiberChain (elFiber : Option (List Fiber))
    (ancestorFibers : List (Option (List Fiber))) : Option (List Fiber) :=
  elFiber.orElse (fun _ => ((ancestorFibers.take 10).filterMap id).head?)

/-- The whole executeScript function: `element` is `none` when
`document.querySelector` found nothing; otherwise the element
contributes its own fiber link and those of its ancestors (nearest
first, the real DOM chain continuing past the body). -/
def reactScript (element : Option (Option (List Fiber) × List (Option (List Fiber)))) :
    ReactOutcome :=
  match element with
  | none => .noElement "Element not found"
  | some (ef, anc) =>
    match locateFiberChain ef anc with
    | none => .noReact
    | some fs => .found (reactFoundOf fs)

/-! ## Cross-context transport
(`getReactInfoFromBackground` in `src/unnamed/part_000` and the
`GET_REACT_INFO` handler in `src/background/background.ts`) -/

/-- The `ReactInfo` record of the content script: every field optional,
`{}` when empty. -/
structure ReactInfo where
  hasReact : Option Bool := none
  componentName : Option String := none
  sourceFile : Option String := none
  sourceLine : Option Nat := none
  sourceColumn : Option Nat := none
  props : Option (List (String × SafeVal)) := none
  componentHierarchy : Option (List String) := none
  fullReactTree : Option (List String) := none
  componentStack : Option (List (String × Option DebugSource)) := none
  error : Option String := none
deriving DecidableEq

/-- The empty `ReactInfo` result `{}`. -/
def emptyReactInfo : ReactInfo := {}

/-- Serialisation of an executeScript outcome into the `ReactInfo`
record the background page forwards. -/
def reactOutcomeToInfo : ReactOutcome → ReactInfo
  | .noElement e => { error := some e }
  | .noReact => { hasReact := some false }
  | .found r =>
    { hasReact := some true
      componentName := r.componentName
      sourceFile := r.sourceFile
      sourceLine := r.sourceLine
      sourceColumn := r.sourceColumn
      props := r.props
      componentHierarchy := some r.componentHierarchy
      fullReactTree := some r.fullReactTree
      componentStack := some r.componentStack }

/-- What the content script can observe of one `sendMessage` exchange:
a transport error (`chrome.runtime.lastError` set, e.g. a missing
receiver), no response object, a response without a `result` field
(e.g. the error object sent by the background catch handler), or a
response carrying a result. -/
inductive TransportOutcome where
  | lastError
  | noResponse
  | responseNoResult (error : Option String)
  | responseResult (r : ReactInfo)
deriving DecidableEq

/-- Is the outcome one of the failure shapes? -/
def TransportOutcome.isFailure : TransportOutcome → Bool
  | .lastError => true
  | .noResponse => true
  | .responseNoResult _ => true
  | .responseResult _ => false

/-- Model of `getReactInfoFromBackground`: the executor always calls
`resolve` (totality of this function models that the promise never
rejects); a transport error or an absent `result` resolves to `{}`. -/
def getReactInfoFromBackground (selector : String) (outcome : TransportOutcome) :
    ReactInfo :=
  match selector, outcome with
  | _, .lastError => emptyReactInfo
  | _, .noResponse => emptyReactInfo
  | _, .responseNoResult _ => emptyReactInfo
  | _, .responseResult r => r

/-- The background `GET_REACT_INFO` handler around the executeScript
call: a fulfilled script run answers `{ result: ... }`, a rejected one
answers `{ error: err.message }` (which carries no `result`). -/
def backgroundRespond (run : Except String ReactOutcome) : TransportOutcome :=
  match run with
  | .ok o => .responseResult (reactOutcomeToInfo o)
  | .error msg => .responseNoResult (some msg)

/-! ## Descriptor assembler (`getElementInfo` in `src/unnamed/part_000`) -/

/-- The `meta` part of the assembled descriptor, mirroring the
`ElementMeta` interface field by field. -/
structure ElementMeta where
  tag : String
  text : String
  innerHTML : String
  componentName : Option String
  displayName : Option String
  componentHierarchy : Option (List String)
  fullReactTree : Option (List String)
  testId : Option String
  allClasses : Option (List String)
  allAttributes : Option (List (String × String))
  computedStyles : Option (List (String × String))
  domPath : String
  parentChain : Option (List ParentEntry)
  siblingIndex : Nat
  childCount : Nat
  sourceFile : Option String
  sourceLine : Option Nat
  sourceColumn : Option Nat
  componentStack : Option (List (String × Option DebugSource))
  props : Option (List (String × SafeVal))
deriving DecidableEq

/-- The assembled descriptor (`ElementInfo`). -/
structure ElementInfo where
  selector : String
  meta : ElementMeta
deriving DecidableEq

/-- Assembly of the descriptor for the element `el` with ancestor chain
`chain`, after the cross-context request resolved to `ri`.  Every field
follows the object literal returned by `getElementInfo`; in particular
both the top-level `selector` and `meta.domPath` are
`getFullDomPath(el)`. -/
def assembleInfo (el : Elem) (chain : Chain (List Fiber)) (ri : ReactInfo) : ElementInfo :=
  { selector := getFullDomPath chain
    meta :=
      { tag := jsToLower el.nodeName
        text := jsTake (jsTrim (el.data.innerText.getD "")) 200
        innerHTML := jsTake el.data.innerHTML 500
        componentName := jsTruthyO ri.componentName
        displayName := jsTruthyO ri.componentName
        componentHierarchy := ri.componentHierarchy
        fullReactTree := ri.fullReactTree
        testId := testIdOf el
        allClasses := (let cls := classList el; if cls = [] then none else some cls)
        allAttributes :=
          (let atts := getAllAttributes el.data.attrs
           if atts = [] then none else some atts)
        computedStyles :=
          (let sts := getRelevantStyles el.data.computedStyle
           if sts = [] then none else some sts)
        domPath := getFullDomPath chain
        parentChain :=
          (let pc := getParentChain chain
           if pc = [] then none else some pc)
        siblingIndex := (match chain with | [] => 0 | (_, _, i) :: _ => i)
        childCount := el.children.length
        sourceFile := jsTruthyO ri.sourceFile
        sourceLine := jsTruthyN ri.sourceLine
        sourceColumn := jsTruthyN ri.sourceColumn
        componentStack := ri.componentStack
        props := ri.props } }

/-- Model of `getElementInfo` with the resolved `ReactInfo` given as a
parameter (the asynchronous boundary): locate the node below the body
and assemble the descriptor. -/
def getElementInfo (body : Elem) (path : List Nat) (ri : ReactInfo) : Option ElementInfo :=
  (locate body path).map (fun p => assembleInfo p.1 p.2 ri)

/-- Model of the full `getElementInfo` pipeline: synthesize the unique
selector, resolve the cross-context request for it through the given
transport, and assemble. -/
def getElementInfoFull (body : Elem) (path : List Nat)
    (transport : String → TransportOutcome) : Option ElementInfo :=
  (locate body path).map (fun p =>
    let sel := getUniqueSelector p.1 p.2
    assembleInfo p.1 p.2 (getReactInfoFromBackground sel (transport sel)))

/-! ## Concrete scenarios used as witnesses and counterexamples -/

/-- Scenario A: the `<button id="save-btn">Save</button>` node. -/
def saveBtnData : ElemData :=
  { nodeName := "BUTTON", attrs := [("id", "save-btn")], className := none,
    innerText := some "Save", innerHTML := "Save", computedStyle := [], fiberChain := none }

def saveBtn : Elem := .mk saveBtnData []

/-- Scenario A: a document body whose only child is the button. -/
def bodyA : Elem :=
  .mk { nodeName := "BODY", attrs := [], className := none, innerText := some "Save",
        innerHTML := "", computedStyle := [], fiberChain := none } [saveBtn]

/-- Scenario A: the resolved cross-context result for a node with no
internal-tree link anywhere near it. -/
def riA : ReactInfo :=
  getReactInfoFromBackground "#save-btn"
    (backgroundRespond (.ok (reactScript (some (none, [none])))))

/-- Scenario B: fibers deriving the names div, Icon, Button, Toolbar. -/
def fibDiv : Fiber := { ftype := .strType "div", debugSource := none, memoizedProps := none }

def fibIcon : Fiber := { ftype := .fnType none "Icon", debugSource := none, memoizedProps := none }

def fibButton : Fiber :=
  { ftype := .fnType none "Button", debugSource := none, memoizedProps := none }

def fibToolbar : Fiber :=
  { ftype := .fnType none "Toolbar", debugSource := none, memoizedProps := none }

def chainB : List Fiber := [fibDiv, fibIcon, fibButton, fibToolbar]

/-- An attribute-less `<button>` used in positional-selector scenarios. -/
def btnPlain : Elem :=
  .mk { nodeName := "BUTTON", attrs := [], className := none, innerText := none,
        innerHTML := "", computedStyle := [], fiberChain := none } []

/-- A parent with exactly three same-tag children. -/
def parentThree : Elem :=
  .mk { nodeName := "DIV", attrs := [], className := none, innerText := none,
        innerHTML := "", computedStyle := [], fiberChain := none }
    [btnPlain, btnPlain, btnPlain]

/-- A parent whose only child of the tag is the node itself. -/
def parentSolo : Elem :=
  .mk { nodeName := "DIV", attrs := [], className := none, innerText := none,
        innerHTML := "", computedStyle := [], fiberChain := none }
    [btnPlain]

/-- The walk entries produced for scenario B. -/
def divEntry : TreeEntry :=
  { name := "div", source := none, props := none, isUserComponent := false }

def iconEntry : TreeEntry :=
  { name := "Icon", source := none, props := none, isUserComponent := true }

def buttonEntry : TreeEntry :=
  { name := "Button", source := none, props := none, isUserComponent := true }

def toolbarEntry : TreeEntry :=
  { name := "Toolbar", source := none, props := none, isUserComponent := true }

/-- A 150-character string for the truncation scenario. -/
def longStr150 : String := ⟨List.replicate 150 'x'⟩

/-- A props record exercising every sanitizer rule. -/
def propsC5 : List (String × PropVal) :=
  [("children", .func), ("onClick", .func), ("title", .str longStr150),
   ("items", .arr 3), ("style", .obj), ("label", .str "ok"), ("count", .num 7)]

/-! ## Helper lemmas -/

theorem jsTake_length_le (s : String) (n : Nat) : (jsTake s n).length ≤ n := by
  have h : (jsTake s n).length = (s.data.take n).length := rfl
  rw [h]
  exact List.length_take_le n s.data

theorem locate_chain_length (body : ElemG φ) (path : List Nat)
    (el : ElemG φ) (chain : Chain φ) (h : locate body path = some (el, chain)) :
    chain.length = path.length := by
  induction path generalizing body el chain with
  | nil =>
    simp only [locate, Option.some.injEq, Prod.mk.injEq] at h
    simp [← h.2]
  | cons i rest ih =>
    simp only [locate] at h
    split at h
    · exact Option.noConfusion h
    · rename_i c hg
      rw [Option.map_eq_some'] at h
      obtain ⟨⟨el', ch'⟩, hrec, heq⟩ := h
      have h2 : ch' ++ [(c, body, i)] = chain := congrArg Prod.snd heq
      subst h2
      simp [ih c el' ch' hrec]

theorem mkEntry_props {d : Nat} {f : Fiber} {e : TreeEntry} (h : mkEntry d f = some e) :
    e.name ≠ "" ∧ ¬ jsStartsWith e.name "_" ∧ e.name ≠ "Fragment" ∧
    e.isUserComponent = isUpperStart e.name ∧
    ∀ s, e.source = some s → s.fileName ≠ "" := by
  unfold mkEntry at h
  split at h
  · rename_i nm hdn
    split at h
    · rename_i hc
      cases h
      refine ⟨hc.1, hc.2.1, hc.2.2, rfl, ?_⟩
      intro s hs
      unfold getDebugSource at hs
      split at hs
      · rename_i r hr
        split at hs
        · exact Option.noConfusion hs
        · rename_i hf
          cases hs
          exact hf
      · exact Option.noConfusion hs
    · exact Option.noConfusion h
  · exact Option.noConfusion h

theorem mem_walkFibers {fs : List Fiber} {e : TreeEntry} (h : e ∈ walkFibers fs) :
    ∃ d f, mkEntry d f = some e := by
  unfold walkFibers at h
  rw [List.mem_filterMap] at h
  obtain ⟨⟨d, f⟩, _, hmk⟩ := h
  exact ⟨d, f, hmk⟩

theorem filter_map_name (l : List TreeEntry)
    (hl : ∀ e ∈ l, e.isUserComponent = isUpperStart e.name) :
    (l.filter (fun e => e.isUserComponent)).map (fun e => e.name) =
      (l.map (fun e => e.name)).filter isUpperStart := by
  induction l with
  | nil => rfl
  | cons a t ih =>
    have ha := hl a (List.mem_cons_self a t)
    have ht : ∀ e ∈ t, e.isUserComponent = isUpperStart e.name :=
      fun e he => hl e (List.mem_cons_of_mem a he)
    cases hu : isUpperStart a.name with
    | false => simp [List.filter_cons, ha, hu, ih ht]
    | true => simp [List.filter_cons, ha, hu, ih ht]

/-! ## The claims -/

/-- C4: the cross-context component-info request never rejects: for
every selector and every transport outcome the content-side handler
resolves (`getReactInfoFromBackground` is a total function), and on a
transport error, a missing response, or a response without a `result`
field it resolves to the empty result object, so descriptor assembly
proceeds with every component-related field absent. -/
theorem c4_transport_resolves (sel : String) (o : TransportOutcome)
    (h : o.isFailure = true) :
    getReactInfoFromBackground sel o = emptyReactInfo ∧
    ∀ (el : Elem) (chain : Chain (List Fiber)),
      (assembleInfo el chain (getReactInfoFromBackground sel o)).meta.componentName = none ∧
      (assembleInfo el chain (getReactInfoFromBackground sel o)).meta.componentHierarchy = none ∧
      (assembleInfo el chain (getReactInfoFromBackground sel o)).meta.fullReactTree = none ∧
      (assembleInfo el chain (getReactInfoFromBackground sel o)).meta.sourceFile = none ∧
      (assembleInfo el chain (getReactInfoFromBackground sel o)).meta.sourceLine = none ∧
      (assembleInfo el chain (getReactInfoFromBackground sel o)).meta.sourceColumn = none ∧
      (assembleInfo el chain (getReactInfoFromBackground sel o)).meta.componentStack = none ∧
      (assembleInfo el chain (getReactInfoFromBackground sel o)).meta.props = none := by
  have he : getReactInfoFromBackground sel o = emptyReactInfo := by
    cases o with
    | lastError => rfl
    | noResponse => rfl
    | responseNoResult e => rfl
    | responseResult r => simp [TransportOutcome.isFailure] at h
  refine ⟨he, ?_⟩
  intro el chain
  rw [he]
  simp [assembleInfo, emptyReactInfo, jsTruthyO, jsTruthyN]

/-- Witness for C4 at the missing-receiver outcome. -/
theorem c4_witness :
    TransportOutcome.isFailure .lastError = true ∧
    getReactInfoFromBackground "#save-btn" .lastError = emptyReactInfo :=
  ⟨rfl, (c4_transport_resolves "#save-btn" .lastError rfl).1⟩

/-- C6: for every node reachable from the document, the DOM path walk
collects at most 15 tokens and the parent chain at most 8 entries, and
both walks only cover elements strictly below the document body (the
chain length equals the depth of the node below the body, the parent
chain additionally excludes the node itself). -/
theorem c6_walk_bounds (body : Elem) (path : List Nat) (el : Elem)
    (chain : Chain (List Fiber)) (h : locate body path = some (el, chain)) :
    (domPathParts chain).length ≤ 15 ∧
    (domPathParts chain).length ≤ path.length ∧
    (getParentChain chain).length ≤ 8 ∧
    (getParentChain chain).length ≤ path.length - 1 := by
  have hc := locate_chain_length body path el chain h
  have h1 : (domPathParts chain).length = min 15 chain.length := by
    simp [domPathParts, List.length_take]
  have h2 : (getParentChain chain).length = min 8 (chain.length - 1) := by
    simp [getParentChain, List.length_take, List.length_drop]
  refine ⟨?_, ?_, ?_, ?_⟩ <;> omega

/-- Witness for C6 at the scenario-A document. -/
theorem c6_witness :
    (domPathParts [(saveBtn, bodyA, 0)]).length ≤ 15 ∧
    (domPathParts [(saveBtn, bodyA, 0)]).length ≤ ([0] : List Nat).length ∧
    (getParentChain [(saveBtn, bodyA, 0)]).length ≤ 8 ∧
    (getParentChain [(saveBtn, bodyA, 0)]).length ≤ ([0] : List Nat).length - 1 :=
  c6_walk_bounds bodyA [0] saveBtn [(saveBtn, bodyA, 0)] rfl

/-- C7: for every starting fiber chain, the component-tree walk visits
at most 30 hops, and no retained entry has a derived name that is
empty, begins with an underscore, or equals `Fragment`. -/
theorem c7_fiber_walk_bounds (fs : List Fiber) :
    (walkFibers fs).length ≤ 30 ∧
    ∀ e ∈ walkFibers fs, e.name ≠ "" ∧ ¬ jsStartsWith e.name "_" ∧ e.name ≠ "Fragment" := by
  constructor
  · have h1 : (walkFibers fs).length ≤ ((fs.take 30).enum).length :=
      List.length_filterMap_le _ _
    have h2 : ((fs.take 30).enum).length = (fs.take 30).length := List.enum_length
    have h3 : (fs.take 30).length ≤ 30 := List.length_take_le 30 fs
    omega
  · intro e he
    obtain ⟨d, f, hmk⟩ := mem_walkFibers he
    have hp := mkEntry_props hmk
    exact ⟨hp.1, hp.2.1, hp.2.2.1⟩

/-- Witness for C7 at the scenario-B chain. -/
theorem c7_witness :
    divEntry ∈ walkFibers chainB ∧
    (divEntry.name ≠ "" ∧ ¬ jsStartsWith divEntry.name "_" ∧ divEntry.name ≠ "Fragment") := by
  have hw : walkFibers chainB = [divEntry, iconEntry, buttonEntry, toolbarEntry] := by
    rfl
  have hm : divEntry ∈ walkFibers chainB := by
    rw [hw]
    exact List.mem_cons_self _ _
  exact ⟨hm, (c7_fiber_walk_bounds chainB).2 divEntry hm⟩

/-- C8: the positional suffix of the ancestor tokens.  When the parent
has exactly 3 children of the node's tag and the node is the second of
them (one same-tag sibling before it), both the `getFullDomPath` token
and the `getUniqueSelector` token carry the suffix `:nth-of-type(2)`;
when the node is the only child of its tag, no positional suffix is
emitted by either. -/
theorem c8_nth_of_type (c p : Elem) (i : Nat) :
    (countTag p.children c.nodeName = 3 → countTagBefore p.children i c.nodeName = 1 →
      domPathToken c p i = domPathBase c ++ ":nth-of-type(2)" ∧
      uniqueSelToken c p i = jsToLower c.nodeName ++ ":nth-of-type(2)") ∧
    (countTag p.children c.nodeName = 1 →
      domPathToken c p i = domPathBase c ∧
      uniqueSelToken c p i = jsToLower c.nodeName) := by
  constructor
  · intro h3 h2
    have hs : nthSuffix p.children i c.nodeName = ":nth-of-type(2)" := by
      unfold nthSuffix
      rw [h3, h2]
      rfl
    constructor
    · unfold domPathToken
      rw [hs]
    · unfold uniqueSelToken
      rw [hs]
  · intro h1
    have hs : nthSuffix p.children i c.nodeName = "" := by
      unfold nthSuffix
      rw [h1]
      rfl
    constructor
    · unfold domPathToken
      rw [hs, String.append_empty]
    · unfold uniqueSelToken
      rw [hs, String.append_empty]

/-- Witness for C8: a second button among three, and a lone button. -/
theorem c8_witness :
    (countTag parentThree.children btnPlain.nodeName = 3 ∧
     countTagBefore parentThree.children 1 btnPlain.nodeName = 1 ∧
     domPathToken btnPlain parentThree 1 = domPathBase btnPlain ++ ":nth-of-type(2)") ∧
    (countTag parentSolo.children btnPlain.nodeName = 1 ∧
     domPathToken btnPlain parentSolo 0 = domPathBase btnPlain) :=
  ⟨⟨by decide, by decide,
    ((c8_nth_of_type btnPlain parentThree 1).1 (by decide) (by decide)).1⟩,
   ⟨by decide, ((c8_nth_of_type btnPlain parentSolo 0).2 (by decide)).1⟩⟩

/-- C9 (amended): the content-script attribute sampler copies every
attribute except those whose name starts with the fiber-link prefix
`__react` or the instrumentation prefix `data-element-agent`,
truncating each value to at most 200 characters; the panel capture
duplicate excludes only the `__react` prefix; in the assembled
descriptor the attributes mapping (like the computed-styles mapping) is
absent when empty, never present-but-empty. -/
theorem c9_attribute_sampler :
    (∀ (attrs : List (String × String)) (k v : String), (k, v) ∈ getAllAttributes attrs →
        ¬ jsStartsWith k "__react" ∧ ¬ jsStartsWith k "data-element-agent" ∧
        v.length ≤ 200 ∧ ∃ w, (k, w) ∈ attrs ∧ v = jsTake w 200) ∧
    (∀ (attrs : List (String × String)) (k v : String), (k, v) ∈ attrs →
        ¬ jsStartsWith k "__react" → ¬ jsStartsWith k "data-element-agent" →
        (k, jsTake v 200) ∈ getAllAttributes attrs) ∧
    (∀ (attrs : List (String × String)) (k v : String), (k, v) ∈ panelGetAllAttributes attrs →
        ¬ jsStartsWith k "__react" ∧ v.length ≤ 200 ∧ ∃ w, (k, w) ∈ attrs ∧ v = jsTake w 200) ∧
    (∀ (attrs : List (String × String)) (k v : String), (k, v) ∈ attrs →
        ¬ jsStartsWith k "__react" → (k, jsTake v 200) ∈ panelGetAllAttributes attrs) ∧
    (∀ (body : Elem) (path : List Nat) (ri : ReactInfo) (info : ElementInfo),
        getElementInfo body path ri = some info →
        info.meta.allAttributes ≠ some [] ∧ info.meta.computedStyles ≠ some []) := by
  refine ⟨?_, ?_, ?_, ?_, ?_⟩
  · intro attrs k v h
    unfold getAllAttributes at h
    rw [List.mem_filterMap] at h
    obtain ⟨⟨k0, w⟩, hmem, hf⟩ := h
    split at hf
    · exact Option.noConfusion hf
    · rename_i hcond
      rw [Option.some.injEq, Prod.mk.injEq] at hf
      obtain ⟨rfl, rfl⟩ := hf
      obtain ⟨h1, h2⟩ := not_or.mp hcond
      exact ⟨h1, h2, jsTake_length_le w 200, w, hmem, rfl⟩
  · intro attrs k v hmem h1 h2
    unfold getAllAttributes
    rw [List.mem_filterMap]
    refine ⟨(k, v), hmem, ?_⟩
    rw [if_neg (not_or.mpr ⟨h1, h2⟩)]
  · intro attrs k v h
    unfold panelGetAllAttributes at h
    rw [List.mem_filterMap] at h
    obtain ⟨⟨k0, w⟩, hmem, hf⟩ := h
    split at hf
    · exact Option.noConfusion hf
    · rename_i hcond
      rw [Option.some.injEq, Prod.mk.injEq] at hf
      obtain ⟨rfl, rfl⟩ := hf
      exact ⟨hcond, jsTake_length_le w 200, w, hmem, rfl⟩
  · intro attrs k v hmem h1
    unfold panelGetAllAttributes
    rw [List.mem_filterMap]
    refine ⟨(k, v), hmem, ?_⟩
    rw [if_neg h1]
  · intro body path ri info h
    unfold getElementInfo at h
    rw [Option.map_eq_some'] at h
    obtain ⟨⟨el, chain⟩, hl, rfl⟩ := h
    constructor
    · simp only [assembleInfo]
      split
      · simp
      · rename_i hne
        simp [hne]
    · simp only [assembleInfo]
      split
      · simp
      · rename_i hne
        simp [hne]

/-- Counterexample for C9 as frozen: an attribute carrying the
instrumentation prefix is kept by the panel duplicate of the sampler
(while the content-script sampler drops it). -/
theorem c9_counterexample :
    jsStartsWith "data-element-agent-x" "data-element-agent" = true ∧
    ("data-element-agent-x", "1") ∈ panelGetAllAttributes [("data-element-agent-x", "1")] ∧
    getAllAttributes [("data-element-agent-x", "1")] = [] := by
  refine ⟨by decide, ?_, by decide⟩
  have hp : panelGetAllAttributes [("data-element-agent-x", "1")] =
      [("data-element-agent-x", "1")] := by decide
  rw [hp]
  exact List.mem_cons_self _ _

/-- Witness for C9 at a concrete ordinary attribute. -/
theorem c9_witness :
    ("id", jsTake "save-btn" 200) ∈ getAllAttributes [("id", "save-btn")] :=
  c9_attribute_sampler.2.1 [("id", "save-btn")] "id" "save-btn"
    (List.mem_cons_self _ _) (by decide) (by decide)

/-- C5: the value sanitizer maps each non-reserved key by the ordered
rules (function to a fixed placeholder, array to a placeholder with the
element count, other non-null object to a generic placeholder with no
nesting, string over 100 characters to its first 100 plus an ellipsis
marker, everything else unchanged), always skips the reserved keys
children/ref/key/__self/__source, and the result is absent, not an
empty mapping, when no entry survives. -/
theorem c5_sanitizer_rules (ps : List (String × PropVal)) :
    (∀ (k : String) (w : SafeVal), (k, w) ∈ sanitizeEntries ps → k ∉ skipPropKeys) ∧
    (∀ (k : String) (v : PropVal), (k, v) ∈ ps → k ∉ skipPropKeys →
        ∀ w, sanitizePropVal v = some w → (k, w) ∈ sanitizeEntries ps) ∧
    sanitizePropVal .func = some (.str "[Function]") ∧
    (∀ n, sanitizePropVal (.arr n) = some (.str ("[Array(" ++ toString n ++ ")]"))) ∧
    sanitizePropVal .obj = some (.str "[Object]") ∧
    (∀ s : String, s.length > 100 →
        sanitizePropVal (.str s) = some (.str (jsTake s 100 ++ "..."))) ∧
    (∀ s : String, s.length ≤ 100 → sanitizePropVal (.str s) = some (.str s)) ∧
    (∀ n, sanitizePropVal (.num n) = some (.num n)) ∧
    (∀ b, sanitizePropVal (.boolv b) = some (.boolv b)) ∧
    sanitizePropVal .nullv = some .nullv ∧
    sanitizePropVal .undef = none ∧
    (getSafeProps (some ps) = none ↔ sanitizeEntries ps = []) := by
  refine ⟨?_, ?_, rfl, fun n => rfl, rfl, ?_, ?_, fun n => rfl, fun b => rfl, rfl, rfl, ?_⟩
  · intro k w h
    unfold sanitizeEntries at h
    rw [List.mem_filterMap] at h
    obtain ⟨⟨k0, v0⟩, hmem, hf⟩ := h
    split at hf
    · exact Option.noConfusion hf
    · rename_i hns
      rw [Option.map_eq_some'] at hf
      obtain ⟨w0, hw0, heq⟩ := hf
      have hk : k0 = k := congrArg Prod.fst heq
      rw [hk] at hns
      exact hns
  · intro k v hmem hns w hw
    unfold sanitizeEntries
    rw [List.mem_filterMap]
    refine ⟨(k, v), hmem, ?_⟩
    rw [if_neg hns, hw]
    rfl
  · intro s hgt
    simp only [sanitizePropVal]
    rw [if_pos hgt]
  · intro s hle
    simp only [sanitizePropVal]
    rw [if_neg (Nat.not_lt.mpr hle)]
  · by_cases hse : sanitizeEntries ps = []
    · simp [getSafeProps, hse]
    · simp [getSafeProps, hse]

set_option maxRecDepth 4000 in
/-- Witness for C5: a props record exercising the reserved-key skip,
the function, array and long-string rules and the 150-character
truncation scenario. -/
theorem c5_witness :
    ("onClick", SafeVal.str "[Function]") ∈ sanitizeEntries propsC5 ∧
    ("title", SafeVal.str (jsTake longStr150 100 ++ "...")) ∈ sanitizeEntries propsC5 ∧
    ("items", SafeVal.str "[Array(3)]") ∈ sanitizeEntries propsC5 ∧
    longStr150.length = 150 ∧
    ("children" : String) ∈ skipPropKeys := by
  have hr := c5_sanitizer_rules propsC5
  refine ⟨?_, ?_, ?_, by decide, by decide⟩
  · exact hr.2.1 "onClick" .func
      (List.mem_cons_of_mem _ (List.mem_cons_self _ _)) (by decide) _ rfl
  · refine hr.2.1 "title" (.str longStr150)
      (List.mem_cons_of_mem _ (List.mem_cons_of_mem _ (List.mem_cons_self _ _)))
      (by decide) _ ?_
    exact hr.2.2.2.2.2.1 longStr150 (by decide)
  · refine hr.2.1 "items" (.arr 3)
      (List.mem_cons_of_mem _ (List.mem_cons_of_mem _
        (List.mem_cons_of_mem _ (List.mem_cons_self _ _)))) (by decide) _ ?_
    exact hr.2.2.2.1 3

/-- C10: for every captured node, the assembled descriptor has its
top-level `selector` field equal to its `meta.domPath` field: both are
produced by the same `getFullDomPath` computation. -/
theorem c10_selector_eq_domPath (body : Elem) (path : List Nat) (ri : ReactInfo)
    (info : ElementInfo) (h : getElementInfo body path ri = some info) :
    info.selector = info.meta.domPath := by
  unfold getElementInfo at h
  rw [Option.map_eq_some'] at h
  obtain ⟨⟨el, chain⟩, hl, rfl⟩ := h
  rfl

/-- Witness for C10 at the scenario-A document. -/
theorem c10_witness :
    (assembleInfo saveBtn [(saveBtn, bodyA, 0)] emptyReactInfo).selector =
      (assembleInfo saveBtn [(saveBtn, bodyA, 0)] emptyReactInfo).meta.domPath :=
  c10_selector_eq_domPath bodyA [0] emptyReactInfo _ rfl

/-- C2 (amended): a walk whose hop chain derives the names
div, Icon, Button, Toolbar yields `componentHierarchy` equal to
Icon, Button, Toolbar (every name beginning with an upper-case letter,
`Icon` included, is classified as a user component), `componentName`
`Icon`, and the full tree list div, Icon, Button, Toolbar. -/
theorem c2_scenario (fs : List Fiber)
    (h : (walkFibers fs).map (fun e => e.name) = ["div", "Icon", "Button", "Toolbar"]) :
    (reactFoundOf fs).componentHierarchy = ["Icon", "Button", "Toolbar"] ∧
    (reactFoundOf fs).componentName = some "Icon" ∧
    (reactFoundOf fs).fullReactTree = ["div", "Icon", "Button", "Toolbar"] := by
  have hiso : ∀ e ∈ walkFibers fs, e.isUserComponent = isUpperStart e.name := by
    intro e he
    obtain ⟨d, f, hmk⟩ := mem_walkFibers he
    exact (mkEntry_props hmk).2.2.2.1
  have hh : (userComponentsOf fs).map (fun e => e.name) =
      ((walkFibers fs).map (fun e => e.name)).filter isUpperStart := by
    unfold userComponentsOf
    exact filter_map_name _ hiso
  rw [h] at hh
  have hfil : (["div", "Icon", "Button", "Toolbar"] : List String).filter isUpperStart =
      ["Icon", "Button", "Toolbar"] := by decide
  rw [hfil] at hh
  refine ⟨?_, ?_, ?_⟩
  · simp only [reactFoundOf]
    exact hh
  · simp only [reactFoundOf]
    cases hu : userComponentsOf fs with
    | nil => rw [hu] at hh; exact absurd hh (by decide)
    | cons u t =>
      rw [hu] at hh
      rw [List.map_cons] at hh
      injection hh with hn ht
      simp [jsTruthyO, hn]
  · simp only [reactFoundOf]
    exact h

/-- Counterexample for C2 as frozen: on the very chain of the scenario,
`Icon` also begins with an upper-case letter, so the hierarchy is not
Button, Toolbar and the primary component is not Button. -/
theorem c2_counterexample :
    (walkFibers chainB).map (fun e => e.name) = ["div", "Icon", "Button", "Toolbar"] ∧
    (reactFoundOf chainB).componentHierarchy ≠ ["Button", "Toolbar"] ∧
    (reactFoundOf chainB).componentName ≠ some "Button" := by
  refine ⟨?_, ?_, ?_⟩ <;> decide

/-- Witness for C2 at the concrete scenario-B chain. -/
theorem c2_witness :
    (walkFibers chainB).map (fun e => e.name) = ["div", "Icon", "Button", "Toolbar"] ∧
    (reactFoundOf chainB).componentHierarchy = ["Icon", "Button", "Toolbar"] :=
  ⟨by decide, (c2_scenario chainB (by decide)).1⟩

/-- C3: in every walk result with at least one user component, the
top-level `componentName` equals the first entry of
`componentHierarchy`, the source file/line/column and props are taken
from that same first user-component hop (through the `||`-to-null
coercions of the source), and `componentStack` is the first 10 user
components, nearest first, paired with their source. -/
theorem c3_primary_identity (fs : List Fiber) (first : TreeEntry) (rest : List TreeEntry)
    (h : userComponentsOf fs = first :: rest) :
    (reactFoundOf fs).componentName = some first.name ∧
    (reactFoundOf fs).componentHierarchy.head? = some first.name ∧
    (reactFoundOf fs).sourceFile = first.source.map (fun s => s.fileName) ∧
    (reactFoundOf fs).sourceLine = jsTruthyN (first.source.map (fun s => s.lineNumber)) ∧
    (reactFoundOf fs).sourceColumn = jsTruthyN (first.source.bind (fun s => s.columnNumber)) ∧
    (reactFoundOf fs).props = first.props ∧
    (reactFoundOf fs).componentStack =
      ((first :: rest).take 10).map (fun c => (c.name, c.source)) := by
  have hfm : first ∈ walkFibers fs := by
    have hmem : first ∈ userComponentsOf fs := by
      rw [h]
      exact List.mem_cons_self _ _
    exact List.mem_of_mem_filter hmem
  obtain ⟨d, f, hmk⟩ := mem_walkFibers hfm
  have hp := mkEntry_props hmk
  have hname : first.name ≠ "" := hp.1
  refine ⟨?_, ?_, ?_, ?_, ?_, ?_, ?_⟩
  · simp only [reactFoundOf, h]
    simp [jsTruthyO, hname]
  · simp only [reactFoundOf, h]
    simp
  · simp only [reactFoundOf, h]
    cases hs : first.source with
    | none => simp [jsTruthyO, hs]
    | some s =>
      have hf := hp.2.2.2.2 s hs
      simp [jsTruthyO, hs, hf]
  · simp only [reactFoundOf, h]
    simp
  · simp only [reactFoundOf, h]
    simp
  · simp only [reactFoundOf, h]
    simp
  · simp only [reactFoundOf, h]

/-- Witness for C3 at a one-fiber chain. -/
theorem c3_witness :
    userComponentsOf [fibButton] = [buttonEntry] ∧
    (reactFoundOf [fibButton]).componentName = some buttonEntry.name ∧
    (reactFoundOf [fibButton]).props = buttonEntry.props := by
  have hu : userComponentsOf [fibButton] = [buttonEntry] := rfl
  have hc := c3_primary_identity [fibButton] buttonEntry [] hu
  exact ⟨hu, hc.1, hc.2.2.2.2.2.1⟩

/-- C1 (amended): for every node with a truthy `id`, the selector
synthesizer `getUniqueSelector` (the string used to address the node in
the cross-context request) returns exactly `#` followed by the id; the
`selector` field of the returned descriptor, however, is the DOM path,
so scenario A yields `selector = "button#save-btn"` (with tag
`button`, text `Save`, and `hasReact = false` from the runtime probe),
not `#save-btn`. -/
theorem c1_descriptor_selector :
    (∀ (el : Elem) (chain : Chain (List Fiber)) (idv : String),
        jsTruthyO (getAttr el "id") = some idv →
        getUniqueSelector el chain = "#" ++ idv) ∧
    ((getElementInfo bodyA [0] riA).map
        (fun i => (i.selector, i.meta.tag, i.meta.text, i.meta.domPath)) =
      some ("button#save-btn", "button", "Save", "button#save-btn")) ∧
    riA.hasReact = some false := by
  refine ⟨?_, by decide, by decide⟩
  intro el chain idv hid
  unfold getUniqueSelector
  rw [hid]

/-- Counterexample for C1 as frozen: in scenario A the descriptor's
`selector` field is the DOM path `button#save-btn`, not `#save-btn`,
although the node carries the stable identifier. -/
theorem c1_counterexample :
    (getElementInfo bodyA [0] riA).map (fun i => i.selector) = some "button#save-btn" ∧
    (getElementInfo bodyA [0] riA).map (fun i => i.selector) ≠ some "#save-btn" ∧
    jsTruthyO (getAttr saveBtn "id") = some "save-btn" := by
  refine ⟨?_, ?_, ?_⟩ <;> decide

/-- Witness for C1 at the scenario-A button. -/
theorem c1_witness :
    jsTruthyO (getAttr saveBtn "id") = some "save-btn" ∧
    getUniqueSelector saveBtn [(saveBtn, bodyA, 0)] = "#" ++ "save-btn" :=
  ⟨by decide,
   c1_descriptor_selector.1 saveBtn [(saveBtn, bodyA, 0)] "save-btn" (by decide)⟩
